import Mathlib

/-!
Shallow embedding of `src/product2db.py` — the metadata-extraction,
type-coercion, bounds-computation and tile-grouping core of the
`dbimporter` repository.

Python floats are modelled as exact rationals (`ℚ`), Python ints as `ℤ`
or `Nat`, Python dicts as association lists (`List (String × _)`,
assignment overwrites in place or appends), and Python exceptions as
`Except` error values.  Regular-expression matches used by the source
are translated operation by operation, including leftmost-search and
alternation-order backtracking semantics where they are observable.
-/

namespace Product2db

/-- Embedding of `_calculate_bounds` (src/product2db.py lines 200-205).
The source performs the arithmetic on Python floats; here it is modelled
exactly on `ℚ`.  `n_cols` and `n_lines` are the (integer) raster
dimensions. -/
def calculate_bounds (first_lon first_lat : ℚ) (n_cols n_lines : ℤ)
    (pixel_size : ℚ) : ℚ × ℚ × ℚ × ℚ :=
  let upper_left_lon := first_lon - pixel_size / 2
  let upper_left_lat := first_lat + pixel_size / 2
  let lower_right_lon := upper_left_lon + (n_cols : ℚ) * pixel_size
  let lower_right_lat := upper_left_lat - (n_lines : ℚ) * pixel_size
  (upper_left_lon, upper_left_lat, lower_right_lon, lower_right_lat)

/-! ### Character classes and small string utilities

These model the character classes of the Python `re` patterns used by the
source (`\w`, `\s`, `\d`, ASCII semantics, as in Python 2 byte-string
patterns) and the handful of string operations the source relies on. -/

/-- Python `\w` (ASCII): letters, digits, underscore. -/
def isWordChar (c : Char) : Bool :=
  c.isAlpha || c.isDigit || c = '_'

/-- `re.search(r'^%s' % name, key)` for a literal (word-character)
pattern: a plain prefix test. -/
def strPrefixOf (p s : String) : Bool :=
  p.data.isPrefixOf s.data

/-- Python `\s` (ASCII): space, tab, newline, carriage return, vertical
tab, form feed. -/
def isSpaceChar (c : Char) : Bool :=
  c = ' ' || c = '\t' || c = '\n' || c = '\r' || c = '\x0b' || c = '\x0c'

/-- Numeric value of a decimal digit string. -/
def natOfDigits (ds : List Char) : Nat :=
  ds.foldl (fun n c => 10 * n + (c.toNat - 48)) 0

/-- `text.split('\n')` on the character list: split at every newline,
keeping empty pieces. -/
def splitLinesAux : List Char → List Char → List (List Char)
  | [], acc => [acc.reverse]
  | '\n' :: rest, acc => acc.reverse :: splitLinesAux rest []
  | c :: rest, acc => splitLinesAux rest (c :: acc)

/-- All lines of the introspection text, as the source's
`gdalinfo.split('\n')`. -/
def splitLines (s : String) : List (List Char) :=
  splitLinesAux s.data []

/-- Python `int(<str>)`: strip surrounding whitespace, optional sign,
then one or more decimal digits; anything else raises `ValueError`
(modelled as `none`). -/
def pyIntStr (s : String) : Option Int :=
  let cs := (s.data.dropWhile isSpaceChar).reverse.dropWhile isSpaceChar |>.reverse
  match cs with
  | '-' :: ds =>
    if ds ≠ [] ∧ ds.all Char.isDigit then some (-(natOfDigits ds : Int)) else none
  | '+' :: ds =>
    if ds ≠ [] ∧ ds.all Char.isDigit then some (natOfDigits ds : Int) else none
  | ds =>
    if ds ≠ [] ∧ ds.all Char.isDigit then some (natOfDigits ds : Int) else none

/-- `re.sub('<pat>_', '', key)` for a literal pattern: delete every
non-overlapping occurrence of `pat`, scanning left to right.  The fuel
argument (instantiated with the string length, which bounds the number
of scan steps for the source's always-nonempty patterns) keeps the
recursion structural. -/
def removeAllGo (pat : List Char) : Nat → List Char → List Char
  | 0, l => l
  | _ + 1, [] => []
  | fuel + 1, c :: rest =>
    if pat.isPrefixOf (c :: rest) then
      removeAllGo pat fuel ((c :: rest).drop pat.length)
    else
      c :: removeAllGo pat fuel rest

/-- `re.sub(pat, '', s)` for the literal (word-character, nonempty)
patterns the source builds from subdataset names. -/
def removeAllOcc (pat : String) (s : String) : String :=
  String.mk (removeAllGo pat.data s.data.length s.data)

/-! ### The Python value and dict model

`_extract_metadata` builds one Python dict whose values are strings,
nested dicts (`subdatasets`, `bands`), and after `_parse_metadata` also
ints, floats and datetimes.  `PyVal` is that value universe; dicts are
association lists with Python's assignment semantics (overwrite in
place, else append). -/

/-- A calendar timestamp as produced by `datetime.datetime.strptime`
(year, month, day, hour, minute; the source's format uses nothing
finer). -/
structure DateTimeM where
  year : Nat
  month : Nat
  day : Nat
  hour : Nat
  minute : Nat
  deriving DecidableEq, Repr

/-- The universe of values stored in the source's metadata dicts. -/
inductive PyVal where
  | str : String → PyVal
  | int : Int → PyVal
  | float : ℚ → PyVal
  | dt : DateTimeM → PyVal
  | dict : List (String × PyVal) → PyVal

/-- A Python dict with `PyVal` values. -/
abbrev Md := List (String × PyVal)

/-- `d.get(key)` / `d[key]` lookup. -/
def dget {α : Type} : List (String × α) → String → Option α
  | [], _ => none
  | (k, v) :: rest, key => if k = key then some v else dget rest key

/-- `d[key] = v`: overwrite the existing entry in place, else append. -/
def dset {α : Type} : List (String × α) → String → α → List (String × α)
  | [], key, v => [(key, v)]
  | (k, w) :: rest, key, v =>
    if k = key then (k, v) :: rest else (k, w) :: dset rest key v

/-- A Python `for` loop threading a value, where the body may raise: the
first raised exception aborts the loop. -/
def foldME {σ α ε : Type} (f : σ → α → Except ε σ) : σ → List α → Except ε σ
  | s, [] => Except.ok s
  | s, a :: as =>
    match f s a with
    | Except.error e => Except.error e
    | Except.ok s' => foldME f s' as

/-- A Python `for` loop rebuilding a list, where the body may raise. -/
def mapME {α β ε : Type} (f : α → Except ε β) : List α → Except ε (List β)
  | [] => Except.ok []
  | a :: as =>
    match f a with
    | Except.error e => Except.error e
    | Except.ok b =>
      match mapME f as with
      | Except.error e => Except.error e
      | Except.ok bs => Except.ok (b :: bs)

/-! ### Line matchers of `_extract_metadata` and its helpers

Each models one `re` pattern from the source, per line of the
introspection text. -/

/-- `re.search('^\s*Metadata:\s*$', line)` (line 327): optional leading
whitespace, the literal label, optional trailing whitespace. -/
def isLabelLine (l : List Char) : Bool :=
  match l.dropWhile isSpaceChar with
  | 'M' :: 'e' :: 't' :: 'a' :: 'd' :: 'a' :: 't' :: 'a' :: ':' :: rest =>
    rest.all isSpaceChar
  | _ => false

/-- `re.search(r'^\s+(?P<key>\w+)=(?P<value>.*)$', line)` (line 309):
required indentation, a word-character key, `=`, and the raw rest of the
line as value. -/
def kvParse (l : List Char) : Option (String × String) :=
  let ws := l.takeWhile isSpaceChar
  if ws.isEmpty then none
  else
    let rest := l.dropWhile isSpaceChar
    let key := rest.takeWhile isWordChar
    if key.isEmpty then none
    else
      match rest.drop key.length with
      | '=' :: value => some (String.mk key, String.mk value)
      | _ => none

/-- `re.search(r'^\s+SUBDATASET_\d+_NAME=(.*)', line)` (line 335):
returns the captured subdataset path value. -/
def subdatasetLine (l : List Char) : Option (List Char) :=
  if (l.takeWhile isSpaceChar).isEmpty then none
  else
    match l.dropWhile isSpaceChar with
    | 'S' :: 'U' :: 'B' :: 'D' :: 'A' :: 'T' :: 'A' :: 'S' :: 'E' :: 'T' :: '_' :: rest =>
      let ds := rest.takeWhile Char.isDigit
      if ds.isEmpty then none
      else
        match rest.drop ds.length with
        | '_' :: 'N' :: 'A' :: 'M' :: 'E' :: '=' :: value => some value
        | _ => none
    | _ => none

/-- `re.search(r'//(\w+)', ds_path).group(1)` (line 338): leftmost `//`
followed by at least one word character; the captured group is the
maximal word-character run after the delimiter. -/
def findDoubleSlashName : List Char → Option (List Char)
  | [] => none
  | '/' :: rest =>
    (match rest with
     | '/' :: rest2 =>
       let w := rest2.takeWhile isWordChar
       if w.isEmpty then findDoubleSlashName rest else some w
     | _ => findDoubleSlashName rest)
  | _ :: rest => findDoubleSlashName rest

/-- `re.search(r'^Band (\d) Block=(\d+)x(\d+) Type=(\w+),', line)`
(line 345): band digit plus its block/type attribute dict, values kept
as raw strings as in the source. -/
def bandLine (l : List Char) : Option (String × Md) :=
  match l with
  | 'B' :: 'a' :: 'n' :: 'd' :: ' ' :: d :: ' ' :: rest =>
    if d.isDigit then
      match rest with
      | 'B' :: 'l' :: 'o' :: 'c' :: 'k' :: '=' :: rest2 =>
        let w := rest2.takeWhile Char.isDigit
        if w.isEmpty then none
        else
          match rest2.drop w.length with
          | 'x' :: rest3 =>
            let hgt := rest3.takeWhile Char.isDigit
            if hgt.isEmpty then none
            else
              match rest3.drop hgt.length with
              | ' ' :: 'T' :: 'y' :: 'p' :: 'e' :: '=' :: rest4 =>
                let ty := rest4.takeWhile isWordChar
                if ty.isEmpty then none
                else
                  match rest4.drop ty.length with
                  | ',' :: _ =>
                    some (String.mk [d],
                      [("block_x", PyVal.str (String.mk w)),
                       ("block_y", PyVal.str (String.mk hgt)),
                       ("dtype", PyVal.str (String.mk ty))])
                  | _ => none
              | _ => none
          | _ => none
      | _ => none
    else none
  | _ => none

/-- `re.search(r'^Size is (\d+), (\d+)', line)` (line 356). -/
def sizeLine (l : List Char) : Option (String × String) :=
  match l with
  | 'S' :: 'i' :: 'z' :: 'e' :: ' ' :: 'i' :: 's' :: ' ' :: rest =>
    let w := rest.takeWhile Char.isDigit
    if w.isEmpty then none
    else
      match rest.drop w.length with
      | ',' :: ' ' :: rest2 =>
        let hgt := rest2.takeWhile Char.isDigit
        if hgt.isEmpty then none else some (String.mk w, String.mk hgt)
      | _ => none
  | _ => none

/-! ### Errors raised by the extraction / coercion pipeline -/

/-- Failure modes of metadata extraction and coercion.  `metadataType`
covers the `ValueError`s of `int()` and `strptime` (carrying the field
and raw value determined at the raise site); `typeError` the
`TypeError`s of applying those to non-strings; `attributeError` the
`.group()` / `.keys()` calls on unsuitable objects. -/
inductive MetaError where
  | metadataType (field : String) (raw : String)
  | typeError (field : String)
  | attributeError
  deriving DecidableEq, Repr

/-! ### `_extract_subdataset_paths`, `_extract_band_properties`,
`_extract_size` (lines 332-360) -/

/-- `_extract_subdataset_paths`: scan every line; each subdataset NAME
line registers `name ↦ path`, where the name is taken after the first
`//` of the path (its absence is an uncaught `AttributeError`). -/
def extract_subdataset_paths (lines : List (List Char)) :
    Except MetaError (List (String × String)) :=
  foldME
    (fun acc l =>
      match subdatasetLine l with
      | none => Except.ok acc
      | some value =>
        match findDoubleSlashName value with
        | none => Except.error MetaError.attributeError
        | some name => Except.ok (dset acc (String.mk name) (String.mk value)))
    [] lines

/-- `_extract_band_properties`: scan every line; each band line
registers the band digit with its block/type attribute dict. -/
def extract_band_properties (lines : List (List Char)) : List (String × PyVal) :=
  lines.foldl
    (fun acc l =>
      match bandLine l with
      | none => acc
      | some (num, props) => dset acc num (PyVal.dict props))
    []

/-- `_extract_size`: the last `Size is W, H` line wins; `(0, 0)` as
Python ints if no line matches. -/
def extract_size (lines : List (List Char)) : PyVal × PyVal :=
  lines.foldl
    (fun acc l =>
      match sizeLine l with
      | none => acc
      | some (x, y) => (PyVal.str x, PyVal.str y))
    (PyVal.int 0, PyVal.int 0)

/-! ### The metadata-block scope assignment (lines 311-323) -/

/-- The value under a dict key must itself be a dict (Python raises
`AttributeError` when `.keys()` / `.get()` is called on anything
else). -/
def asDict : PyVal → Except MetaError Md
  | PyVal.dict d => Except.ok d
  | _ => Except.error MetaError.attributeError

/-- The inner `for sds in metadata['subdatasets'].keys()` loop: every
subdataset whose name is a prefix of the key receives the key with all
occurrences of `name + "_"` deleted (`re.sub`); the returned flag
records whether any subdataset matched. -/
def assignIntoSds (key value : String) : Md → Except MetaError (Md × Bool)
  | [] => Except.ok ([], false)
  | (sds, scopeVal) :: rest =>
    if strPrefixOf sds key then
      match asDict scopeVal with
      | Except.error e => Except.error e
      | Except.ok d =>
        match assignIntoSds key value rest with
        | Except.error e => Except.error e
        | Except.ok restOut =>
          Except.ok ((sds, PyVal.dict
            (dset d (removeAllOcc (sds ++ "_") key) (PyVal.str value))) :: restOut.1,
            true)
    else
      match assignIntoSds key value rest with
      | Except.error e => Except.error e
      | Except.ok restOut => Except.ok ((sds, scopeVal) :: restOut.1, restOut.2)

/-- Assignment of one `key=value` pair found inside a metadata block:
if a `subdatasets` entry exists, distribute the key to every matching
subdataset scope; store it flat only when no subdataset matched (or when
`subdatasets` is absent — the source's `except KeyError` branch). -/
def assignMetaKey (md : Md) (key value : String) : Except MetaError Md :=
  match dget md "subdatasets" with
  | none => Except.ok (dset md key (PyVal.str value))
  | some sdsVal =>
    match asDict sdsVal with
    | Except.error e => Except.error e
    | Except.ok sdsd =>
      match assignIntoSds key value sdsd with
      | Except.error e => Except.error e
      | Except.ok r =>
        let md' := dset md "subdatasets" (PyVal.dict r.1)
        if r.2 then Except.ok md' else Except.ok (dset md' key (PyVal.str value))

/-- One step of the line loop of `_extract_metadata` (lines 307-327):
inside a block, a `key=value` line is assigned and a non-matching line
ends the block; outside a block, only a `Metadata:` label starts one. -/
def mdStep (st : Bool × Md) (l : List Char) : Except MetaError (Bool × Md) :=
  if st.1 then
    match kvParse l with
    | some kv =>
      match assignMetaKey st.2 kv.1 kv.2 with
      | Except.error e => Except.error e
      | Except.ok md' => Except.ok (true, md')
    | none => Except.ok (false, st.2)
  else if isLabelLine l then Except.ok (true, st.2)
  else Except.ok (false, st.2)

/-! ### `_parse_metadata` (lines 362-388) -/

/-- The registry of integer fields (line 366). -/
def int_fields : List String :=
  ["NL", "NC", "N_COLS", "N_LINES", "MISSING_VALUE", "SCALING_FACTOR",
   "FIRST_LAT", "FIRST_LON", "size_x", "size_y"]

/-- Python `int()` applied to a stored value, raising
`MetadataTypeError` (a `ValueError` in the source) for non-numeric text,
and `TypeError` for values `int()` does not accept at all.  `int` of a
float truncates toward zero. -/
def pyIntV (field : String) : PyVal → Except MetaError Int
  | PyVal.str s =>
    match pyIntStr s with
    | some n => Except.ok n
    | none => Except.error (MetaError.metadataType field s)
  | PyVal.int n => Except.ok n
  | PyVal.float q =>
    Except.ok (if 0 ≤ q then q.floor else -((-q).floor))
  | PyVal.dt _ => Except.error (MetaError.typeError field)
  | PyVal.dict _ => Except.error (MetaError.typeError field)

/-- Coerce one registry field inside one nested scope (`metas.get(f)`
then `metas[f] = int(metas[f])`); the scope value must be a dict. -/
def coerceScopeEntry (f : String) (e : String × PyVal) :
    Except MetaError (String × PyVal) :=
  match asDict e.2 with
  | Except.error err => Except.error err
  | Except.ok d =>
    match dget d f with
    | none => Except.ok (e.1, PyVal.dict d)
    | some w =>
      match pyIntV f w with
      | Except.error err => Except.error err
      | Except.ok n => Except.ok (e.1, PyVal.dict (dset d f (PyVal.int n)))

/-- The `if / elif / elif` of the `int_fields` loop (lines 369-379):
file scope if the field is present there; otherwise, when a
`subdatasets` entry exists, every subdataset scope containing the field
(bands are then never inspected); otherwise, when a `bands` entry
exists, every band scope containing the field. -/
def coerceField (md : Md) (f : String) : Except MetaError Md :=
  match dget md f with
  | some v =>
    match pyIntV f v with
    | Except.error e => Except.error e
    | Except.ok n => Except.ok (dset md f (PyVal.int n))
  | none =>
    match dget md "subdatasets" with
    | some sdsVal =>
      match asDict sdsVal with
      | Except.error e => Except.error e
      | Except.ok sdsd =>
        match mapME (coerceScopeEntry f) sdsd with
        | Except.error e => Except.error e
        | Except.ok sdsd' => Except.ok (dset md "subdatasets" (PyVal.dict sdsd'))
    | none =>
      match dget md "bands" with
      | some bVal =>
        match asDict bVal with
        | Except.error e => Except.error e
        | Except.ok bd =>
          match mapME (coerceScopeEntry f) bd with
          | Except.error e => Except.error e
          | Except.ok bd' => Except.ok (dset md "bands" (PyVal.dict bd'))
      | none => Except.ok md

/-- `re.search(r'(\d+\.?\d*)', pixel_size).group()` then `float(...)`
(line 383): the leftmost digit run, optionally followed by a dot and
more digits, as an exact rational. -/
def findFloatToken : List Char → Option ℚ
  | [] => none
  | c :: rest =>
    if c.isDigit then
      let ds := (c :: rest).takeWhile Char.isDigit
      let whole : ℚ := (natOfDigits ds : ℚ)
      match (c :: rest).drop ds.length with
      | '.' :: rest2 =>
        let fs := rest2.takeWhile Char.isDigit
        some (whole + (natOfDigits fs : ℚ) / ((10 : ℚ) ^ fs.length))
      | _ => some whole
    else findFloatToken rest

/-! ### `datetime.datetime.strptime(value, '%Y%m%d%H%M')` (line 387)

CPython compiles the format to the regex
`(\d\d\d\d)(1[0-2]|0[1-9]|[1-9])(3[01]|[12]\d|0[1-9]|[1-9])(2[0-3]|[0-1]\d|\d)([0-5]\d|\d)`,
anchors it at the start (`match`), and raises `ValueError` when there is
no match or when the match does not consume the whole string.  Each
directive's alternatives are tried in the order written, with
backtracking, and the first complete match wins.  The values then pass
through the `datetime` constructor's range checks. -/

/-- Decimal value of a digit character. -/
def digitVal (c : Char) : Nat := c.toNat - 48

/-- `%Y`: exactly four digits. -/
def matchYear : List Char → Option (Nat × List Char)
  | a :: b :: c :: d :: rest =>
    if a.isDigit && b.isDigit && c.isDigit && d.isDigit then
      some (natOfDigits [a, b, c, d], rest)
    else none
  | _ => none

/-- `%m` alternatives `1[0-2] | 0[1-9] | [1-9]`, in preference order. -/
def candsMonth (cs : List Char) : List (Nat × List Char) :=
  (match cs with
   | '1' :: c :: rest =>
     if '0' ≤ c ∧ c ≤ '2' then [(10 + digitVal c, rest)] else []
   | _ => []) ++
  (match cs with
   | '0' :: c :: rest =>
     if '1' ≤ c ∧ c ≤ '9' then [(digitVal c, rest)] else []
   | _ => []) ++
  (match cs with
   | c :: rest => if '1' ≤ c ∧ c ≤ '9' then [(digitVal c, rest)] else []
   | _ => [])

/-- `%d` alternatives `3[01] | [12]\d | 0[1-9] | [1-9]`. -/
def candsDay (cs : List Char) : List (Nat × List Char) :=
  (match cs with
   | '3' :: c :: rest =>
     if '0' ≤ c ∧ c ≤ '1' then [(30 + digitVal c, rest)] else []
   | _ => []) ++
  (match cs with
   | c :: d :: rest =>
     if ('1' ≤ c ∧ c ≤ '2') ∧ d.isDigit then
       [(10 * digitVal c + digitVal d, rest)]
     else []
   | _ => []) ++
  (match cs with
   | '0' :: c :: rest =>
     if '1' ≤ c ∧ c ≤ '9' then [(digitVal c, rest)] else []
   | _ => []) ++
  (match cs with
   | c :: rest => if '1' ≤ c ∧ c ≤ '9' then [(digitVal c, rest)] else []
   | _ => [])

/-- `%H` alternatives `2[0-3] | [0-1]\d | \d`. -/
def candsHour (cs : List Char) : List (Nat × List Char) :=
  (match cs with
   | '2' :: c :: rest =>
     if '0' ≤ c ∧ c ≤ '3' then [(20 + digitVal c, rest)] else []
   | _ => []) ++
  (match cs with
   | c :: d :: rest =>
     if ('0' ≤ c ∧ c ≤ '1') ∧ d.isDigit then
       [(10 * digitVal c + digitVal d, rest)]
     else []
   | _ => []) ++
  (match cs with
   | c :: rest => if c.isDigit then [(digitVal c, rest)] else []
   | _ => [])

/-- `%M` alternatives `[0-5]\d | \d`. -/
def candsMinute (cs : List Char) : List (Nat × List Char) :=
  (match cs with
   | c :: d :: rest =>
     if ('0' ≤ c ∧ c ≤ '5') ∧ d.isDigit then
       [(10 * digitVal c + digitVal d, rest)]
     else []
   | _ => []) ++
  (match cs with
   | c :: rest => if c.isDigit then [(digitVal c, rest)] else []
   | _ => [])

/-- Try candidates in order, keeping the first whose continuation
succeeds — regex alternation with backtracking. -/
def firstSome {α β : Type} : List α → (α → Option β) → Option β
  | [], _ => none
  | a :: as, f =>
    match f a with
    | some b => some b
    | none => firstSome as f

/-- The anchored regex match of the compiled `%Y%m%d%H%M` pattern: the
first complete five-directive match in backtracking order, together with
the unconsumed remainder of the string. -/
def strpMatch (cs : List Char) :
    Option ((Nat × Nat × Nat × Nat × Nat) × List Char) :=
  (matchYear cs).bind fun yr =>
    firstSome (candsMonth yr.2) fun mo =>
      firstSome (candsDay mo.2) fun dy =>
        firstSome (candsHour dy.2) fun hr =>
          (candsMinute hr.2).head?.map fun mi =>
            ((yr.1, mo.1, dy.1, hr.1, mi.1), mi.2)

/-- Gregorian leap year, as `calendar.isleap`. -/
def isLeap (y : Nat) : Bool :=
  y % 4 = 0 && (y % 100 ≠ 0 || y % 400 = 0)

/-- Days in a month, as used by the `datetime` constructor's range
check. -/
def daysInMonth (y m : Nat) : Nat :=
  if m = 2 then (if isLeap y then 29 else 28)
  else if m = 4 ∨ m = 6 ∨ m = 9 ∨ m = 11 then 30
  else 31

/-- `datetime.datetime.strptime(s, '%Y%m%d%H%M')`: anchored match, the
whole string must be consumed, and the matched values must form a valid
`datetime` (year ≥ 1, day within the month); `none` models
`ValueError`. -/
def strptimeYmdHM (s : String) : Option DateTimeM :=
  match strpMatch s.data with
  | none => none
  | some ((y, mo, d, h, mi), rest) =>
    if rest = [] ∧ 1 ≤ y ∧ 1 ≤ d ∧ d ≤ daysInMonth y mo then
      some ⟨y, mo, d, h, mi⟩
    else none

/-- `datetime.strftime('%Y%m%d%H%M')` for the merged-mosaic file name
(line 79): zero-padded fixed-width decimal rendering. -/
def padNat (width n : Nat) : String :=
  let s := toString n
  String.mk (List.replicate (width - s.length) '0') ++ s

/-- Format a timestamp back to `YYYYMMDDHHMM`. -/
def strftimeYmdHM (t : DateTimeM) : String :=
  padNat 4 t.year ++ padNat 2 t.month ++ padNat 2 t.day ++
    padNat 2 t.hour ++ padNat 2 t.minute

/-- The `PIXEL_SIZE` stage of `_parse_metadata` (lines 381-384). -/
def coercePixelSize (md : Md) : Except MetaError Md :=
  match dget md "PIXEL_SIZE" with
  | none => Except.ok md
  | some (PyVal.str s) =>
    match findFloatToken s.data with
    | none => Except.error MetaError.attributeError
    | some q => Except.ok (dset md "PIXEL_SIZE" (PyVal.float q))
  | some _ => Except.error (MetaError.typeError "PIXEL_SIZE")

/-- The `IMAGE_ACQUISITION_TIME` stage of `_parse_metadata`
(lines 385-388). -/
def coerceAcqTime (md : Md) : Except MetaError Md :=
  match dget md "IMAGE_ACQUISITION_TIME" with
  | none => Except.ok md
  | some (PyVal.str s) =>
    match strptimeYmdHM s with
    | none => Except.error (MetaError.metadataType "IMAGE_ACQUISITION_TIME" s)
    | some t => Except.ok (dset md "IMAGE_ACQUISITION_TIME" (PyVal.dt t))
  | some _ => Except.error (MetaError.typeError "IMAGE_ACQUISITION_TIME")

/-- `_parse_metadata` (lines 362-388): coerce every registry integer
field in place, then the `PIXEL_SIZE` float, then the acquisition
timestamp; the first failing conversion aborts (a raised exception in
the source). -/
def parse_metadata (md : Md) : Except MetaError Md :=
  match foldME coerceField md int_fields with
  | Except.error e => Except.error e
  | Except.ok md1 =>
    match coercePixelSize md1 with
    | Except.error e => Except.error e
    | Except.ok md2 => coerceAcqTime md2

/-- `_extract_metadata` (lines 294-330) from the introspection text on:
pre-pass subdataset and band discovery, raster size, the metadata-block
line loop, then `_parse_metadata`.  (The `gdalinfo` invocation itself is
external; this function is the parser applied to its text output.) -/
def extract_metadata_text (txt : String) : Except MetaError Md :=
  let lines := splitLines txt
  match extract_subdataset_paths lines with
  | Except.error e => Except.error e
  | Except.ok subdatasets =>
    let bands := extract_band_properties lines
    let md0 : Md := []
    let md1 :=
      if subdatasets.isEmpty then md0
      else
        dset md0 "subdatasets"
          (PyVal.dict (subdatasets.map
            (fun e => (e.1, PyVal.dict [("path", PyVal.str e.2)]))))
    let md2 := if bands.isEmpty then md1 else dset md1 "bands" (PyVal.dict bands)
    let sz := extract_size lines
    let md3 := dset (dset md2 "size_x" sz.1) "size_y" sz.2
    match foldME mdStep (false, md3) lines with
    | Except.error e => Except.error e
    | Except.ok st => parse_metadata st.2

/-! ### `_merge_tiles` (lines 60-85) -/

/-- Attempt of `re.search('v1_(\w+).tif$', path)` at one start
position: after the literal `v1_`, the pattern's end anchor forces the
group length, the group must be word characters, the unescaped `.`
matches any character but a newline, and the literal `tif` must close
the string. -/
def matchTileAt : List Char → Option (List Char)
  | 'v' :: '1' :: '_' :: rest =>
    if 5 ≤ rest.length then
      let wlen := rest.length - 4
      let w := rest.take wlen
      if w.all isWordChar ∧ rest.get? wlen ≠ some '\n' ∧
          rest.drop (wlen + 1) = ['t', 'i', 'f'] then
        some w
      else none
    else none
  | _ => none

/-- `re.search` scanning: leftmost start position whose attempt
succeeds. -/
def searchTileKey : List Char → Option (List Char)
  | [] => none
  | c :: cs =>
    match matchTileAt (c :: cs) with
    | some w => some w
    | none => searchTileKey cs

/-- The grouping key of one candidate path: the identifier captured by
`re.search('v1_(\w+).tif$', path)`, `none` when the pattern does not
match (an uncaught `AttributeError` on `.group(1)` in the source). -/
def findTileKey (path : String) : Option String :=
  (searchTileKey path.data).map String.mk

/-- `re.search(r'g2_BIOPAR_(\w+)_\d{12}', ...)` group-1 attempt after
the literal prefix: the greedy `\w+` tries its longest extent first and
backtracks to the longest prefix followed by `_` and twelve digits. -/
def tryProductLen (rest : List Char) : Nat → Option (List Char)
  | 0 => none
  | len + 1 =>
    let w := rest.take (len + 1)
    if w.all isWordChar ∧ rest.get? (len + 1) = some '_' ∧
        ((rest.drop (len + 2)).take 12).length = 12 ∧
        ((rest.drop (len + 2)).take 12).all Char.isDigit then
      some w
    else tryProductLen rest len

/-- One start-position attempt of the product pattern. -/
def matchProductAt : List Char → Option (List Char)
  | 'g' :: '2' :: '_' :: 'B' :: 'I' :: 'O' :: 'P' :: 'A' :: 'R' :: '_' :: rest =>
    tryProductLen rest ((rest.takeWhile isWordChar).length)
  | _ => none

/-- Leftmost-search for the product pattern over the whole path. -/
def searchProductAux : List Char → Option (List Char)
  | [] => none
  | c :: cs =>
    match matchProductAt (c :: cs) with
    | some w => some w
    | none => searchProductAux cs

/-- The product code captured from the first tile path (line 67). -/
def searchProduct (path : String) : Option String :=
  (searchProductAux path.data).map String.mk

/-- `os.path.dirname`: everything up to the last `/`, with trailing
slashes stripped unless the head is slashes only; empty when there is no
slash. -/
def dirname (s : String) : String :=
  let cs := s.data
  let tailLen := (cs.reverse.takeWhile (fun c => c ≠ '/')).length
  if tailLen = cs.length then ""
  else
    let head := cs.take (cs.length - tailLen)
    if head.all (fun c => c = '/') then String.mk head
    else String.mk ((head.reverse.dropWhile (fun c => c = '/')).reverse)

/-- Failure modes of `_merge_tiles` — all uncaught exceptions in the
source (`AttributeError` on a failed regex `.group`, `IndexError` on an
empty input list, `KeyError` on missing representative metadata). -/
inductive MergeError where
  | tileNaming (path : String)
  | productNaming (path : String)
  | emptyInput
  | missingMeta (path : String)
  deriving DecidableEq, Repr

/-- `datasets[dataset].append(path)` / `datasets[dataset] = [path]`
(lines 70-73): append to the existing group, else open a new one. -/
def addPath : List (String × List String) → String → String →
    List (String × List String)
  | [], k, p => [(k, [p])]
  | (k', l) :: rest, k, p =>
    if k' = k then (k', l ++ [p]) :: rest else (k', l) :: addPath rest k p

/-- One step of the grouping loop of `_merge_tiles` (lines 68-73):
derive the path's key and add the path to its group; a path whose name
fails the pattern aborts the whole operation. -/
def groupStep (acc : List (String × List String)) (p : String) :
    Except MergeError (List (String × List String)) :=
  match findTileKey p with
  | none => Except.error (MergeError.tileNaming p)
  | some k => Except.ok (addPath acc k p)

/-- The grouping loop of `_merge_tiles` (lines 68-73). -/
def group_datasets (tiles : List String) :
    Except MergeError (List (String × List String)) :=
  foldME groupStep [] tiles

/-- The representative metadata `_merge_tiles` reads from the first
group member's extracted metadata: the acquisition timestamp used in the
output name and the missing value passed as the merge no-data. -/
structure TileMeta where
  acqTime : DateTimeM
  missingValue : Int
  deriving DecidableEq, Repr

/-- One invocation of `gdal_merge.py` planned by `_merge_tiles`
(lines 75-84): the output path, the no-data value, and the member paths,
in the order the source passes them. -/
structure MosaicJob where
  outputPath : String
  nodata : Int
  members : List String
  deriving DecidableEq, Repr

/-- The body of the per-group loop (lines 74-84): metadata of the FIRST
member parameterizes the merged output; a missing acquisition time or
missing value is an uncaught `KeyError`.  `meta` abstracts
`_extract_metadata` applied to the member path (which shells out to
`gdalinfo`). -/
def mosaicOfGroup (meta : String → Option TileMeta) (product : String)
    (k : String) (ms : List String) : Except MergeError MosaicJob :=
  match ms with
  | [] => Except.error MergeError.emptyInput
  | p0 :: _ =>
    match meta p0 with
    | none => Except.error (MergeError.missingMeta p0)
    | some m =>
      Except.ok
        ⟨dirname p0 ++ "/global_" ++ product ++ "_" ++
           strftimeYmdHM m.acqTime ++ "_" ++ k ++ ".tif",
         m.missingValue, ms⟩

/-- `_merge_tiles` as the list of planned merge invocations: product
code from the first path, grouping, then one job per group. -/
def mosaicJobs (meta : String → Option TileMeta) (tiles : List String) :
    Except MergeError (List MosaicJob) :=
  match tiles with
  | [] => Except.error MergeError.emptyInput
  | t0 :: _ =>
    match searchProduct t0 with
    | none => Except.error (MergeError.productNaming t0)
    | some product =>
      match group_datasets tiles with
      | Except.error e => Except.error e
      | Except.ok g => mapME (fun e => mosaicOfGroup meta product e.1 e.2) g

/-- Spec-side: the grouping key of a well-named path. -/
def keyOf (p : String) : String :=
  (findTileKey p).getD ""

/-- Spec-side: the pure grouping fold, defined when every path is
well-named. -/
def specGroups (tiles : List String) : List (String × List String) :=
  tiles.foldl (fun acc p => addPath acc (keyOf p) p) []

/-- Spec-side: prepend an already-collected member list to the members
discovered later (used to state the grouping invariant). -/
def combineOpt (prev : Option (List String)) (ms : List String) :
    Option (List String) :=
  match prev, ms with
  | some l, ms => some (l ++ ms)
  | none, [] => none
  | none, ms => some ms

/-- `_merge_tiles`' return value: the mosaic output paths. -/
def merge_tiles (meta : String → Option TileMeta) (tiles : List String) :
    Except MergeError (List String) :=
  match mosaicJobs meta tiles with
  | Except.error e => Except.error e
  | Except.ok jobs => Except.ok (jobs.map MosaicJob.outputPath)

/-! ### Spec-side characterization helpers

Used only in theorem statements, to describe what the source-translated
functions compute. -/

/-- The dict payload of a value known to be a dict. -/
def pvDict : PyVal → Md
  | PyVal.dict d => d
  | _ => []

/-- Spec-side description of the subdataset scope assignment of one
metadata key: every subdataset whose name is a plain prefix of the key
receives the key with all occurrences of `name + "_"` deleted. -/
def specAssignSds (key value : String) (sdsd : Md) : Md :=
  sdsd.map fun e =>
    if strPrefixOf e.1 key then
      (e.1, PyVal.dict (dset (pvDict e.2) (removeAllOcc (e.1 ++ "_") key)
        (PyVal.str value)))
    else e

/-- Spec-side description of integer coercion inside one nested scope:
convert the field in place when present, leave the scope untouched when
absent (partial: identity when the conversion would fail). -/
def specCoerceScope (f : String) (e : String × PyVal) : String × PyVal :=
  match e.2 with
  | PyVal.dict d =>
    (match dget d f with
     | none => (e.1, PyVal.dict d)
     | some w =>
       match pyIntV f w with
       | Except.ok n => (e.1, PyVal.dict (dset d f (PyVal.int n)))
       | Except.error _ => (e.1, PyVal.dict d))
  | _ => e

end Product2db

/-- C1: the bounds calculation steps back half a pixel from the reported
pixel-centre origin and advances the lower-right corner additively by the
raster extent; at the spec's concrete input it yields
`ul = (-170.025, 80.025)` and `lr = (189.975, -59.975)`. -/
theorem calculate_bounds_spec :
    (∀ (flon fla : ℚ) (nc nl : ℤ) (ps : ℚ),
      Product2db.calculate_bounds flon fla nc nl ps =
        (flon - ps / 2, fla + ps / 2,
         (flon - ps / 2) + (nc : ℚ) * ps,
         (fla + ps / 2) - (nl : ℚ) * ps))
    ∧ Product2db.calculate_bounds (-170) 80 7200 2800 (1/20) =
        (-(6801/40), 3201/40, 7599/40, -(2399/40)) := by
  constructor
  · intro flon fla nc nl ps
    rfl
  · simp only [Product2db.calculate_bounds]
    norm_num

/-- C4 counterexample: with `pixel_size = 0` (and likewise with
`n_cols = 0`) the bounds calculation does not fail — the source contains
no precondition check and no `InvalidGeometryError`; it returns an
ordinary (degenerate) bounds tuple. -/
theorem calculate_bounds_no_guard_counterexample :
    Product2db.calculate_bounds (-170) 80 7200 2800 0 = (-170, 80, -170, 80)
    ∧ Product2db.calculate_bounds (-170) 80 0 2800 (1/20) =
        (-(6801/40), 3201/40, -(6801/40), -(2399/40)) := by
  constructor
  · simp only [Product2db.calculate_bounds]
    norm_num
  · simp only [Product2db.calculate_bounds]
    norm_num

/-- C4 amended: calls violating the spec's preconditions
(`pixel_size ≤ 0`, `n_cols ≤ 0` or `n_lines ≤ 0`) are not rejected; the
calculation still returns the tuple given by the same half-pixel /
additive-extent formula. -/
theorem calculate_bounds_no_guard (flon fla : ℚ) (nc nl : ℤ) (ps : ℚ)
    (_h : ps ≤ 0 ∨ nc ≤ 0 ∨ nl ≤ 0) :
    Product2db.calculate_bounds flon fla nc nl ps =
      (flon - ps / 2, fla + ps / 2,
       (flon - ps / 2) + (nc : ℚ) * ps,
       (fla + ps / 2) - (nl : ℚ) * ps) := by
  rfl

/-- Witness for `calculate_bounds_no_guard` at `pixel_size = 0`. -/
theorem calculate_bounds_no_guard_witness :
    (0 : ℚ) ≤ 0 ∧
    Product2db.calculate_bounds (-170) 80 7200 2800 0 =
      (-170 - 0 / 2, 80 + 0 / 2,
       (-170 - 0 / 2) + ((7200 : ℤ) : ℚ) * 0,
       (80 + 0 / 2) - ((2800 : ℤ) : ℚ) * 0) :=
  ⟨le_refl 0, calculate_bounds_no_guard (-170) 80 7200 2800 0 (Or.inl (le_refl 0))⟩

open Product2db

/-! ## Generic dictionary lemmas -/

/-- Looking up a key other than the one just assigned is unchanged. -/
theorem dget_dset_ne {α : Type} (d : List (String × α)) (k' k : String)
    (v : α) (h : k' ≠ k) : dget (dset d k' v) k = dget d k := by
  induction d with
  | nil => simp [dget, dset, h]
  | cons e rest ih =>
    by_cases he : e.1 = k'
    · simp [dset, he, dget, h]
    · simp only [dset, he, if_false]
      by_cases hek : e.1 = k
      · simp [dget, hek]
      · simp [dget, hek, ih]

/-- Looking up the key just assigned yields the assigned value. -/
theorem dget_dset_self {α : Type} (d : List (String × α)) (k : String)
    (v : α) : dget (dset d k v) k = some v := by
  induction d with
  | nil => simp [dget, dset]
  | cons e rest ih =>
    by_cases he : e.1 = k
    · simp [dset, he, dget]
    · simp [dset, he, dget, ih]

/-- Lookup in a one-entry dict. -/
theorem dget_single (f g : String) (x : PyVal) :
    dget [(f, x)] g = if f = g then some x else none := by
  simp [dget]

/-! ## C9 — determinism of the parser -/

/-- C9: metadata extraction is a pure function of the introspection
text: two runs on equal texts produce structurally equal results (the
embedding exhibits the absence of hidden state across calls). -/
theorem extract_metadata_deterministic (t1 t2 : String) (h : t1 = t2) :
    extract_metadata_text t1 = extract_metadata_text t2 := by
  rw [h]

/-- Witness for `extract_metadata_deterministic` on a concrete text. -/
theorem extract_metadata_deterministic_witness :
    "Metadata:\n  PRODUCT=LST" = "Metadata:\n  PRODUCT=LST" ∧
    extract_metadata_text "Metadata:\n  PRODUCT=LST" =
      extract_metadata_text "Metadata:\n  PRODUCT=LST" :=
  ⟨rfl, extract_metadata_deterministic "Metadata:\n  PRODUCT=LST"
    "Metadata:\n  PRODUCT=LST" rfl⟩

/-! ## C10 — multiple `Metadata:` blocks -/

/-- C10 counterexample: two `Metadata:` labels with the second
immediately following the first block's attribute lines.  The second
label line is consumed as the block terminator while still inside the
first block, so collection is NOT restarted and `B=2` is lost — the
claim's "attributes from all blocks are merged" fails on this text. -/
theorem metadata_blocks_counterexample :
    extract_metadata_text "Metadata:\n  A=1\nMetadata:\n  B=2" =
      Except.ok [("size_x", PyVal.int 0), ("size_y", PyVal.int 0),
                 ("A", PyVal.str "1")] := by
  rfl

/-- C10 amended: inside a block, a line failing the `<indent><key>=<value>`
pattern (a `Metadata:` label included) only ends the block; a label
restarts collection only when read while outside a block.  Blocks whose
labels are read outside a block all merge into the same mapping, as the
concrete two-block text with a separator line shows, while a block whose
label closed the previous block is skipped. -/
theorem metadata_blocks_amended :
    (∀ (md : Md) (l : List Char), kvParse l = none →
      mdStep (true, md) l = Except.ok (false, md))
    ∧ (∀ (md : Md) (l : List Char), isLabelLine l = true →
      mdStep (false, md) l = Except.ok (true, md))
    ∧ (∀ (md : Md) (l : List Char), isLabelLine l = false →
      mdStep (false, md) l = Except.ok (false, md))
    ∧ extract_metadata_text "Metadata:\n  A=1\nX\nMetadata:\n  B=2" =
      Except.ok [("size_x", PyVal.int 0), ("size_y", PyVal.int 0),
                 ("A", PyVal.str "1"), ("B", PyVal.str "2")]
    ∧ extract_metadata_text "Metadata:\n  A=1\nMetadata:\n  B=2" =
      Except.ok [("size_x", PyVal.int 0), ("size_y", PyVal.int 0),
                 ("A", PyVal.str "1")] := by
  refine ⟨?_, ?_, ?_, rfl, rfl⟩
  · intro md l hkv
    simp [mdStep, hkv]
  · intro md l hl
    simp [mdStep, hl]
  · intro md l hl
    simp [mdStep, hl]

/-- Witness for `metadata_blocks_amended`: the block-ending and
block-starting steps at concrete lines. -/
theorem metadata_blocks_amended_witness :
    kvParse "X".data = none ∧ isLabelLine "Metadata:".data = true ∧
    mdStep (true, []) "X".data = Except.ok (false, []) ∧
    mdStep (false, []) "Metadata:".data = Except.ok (true, []) :=
  ⟨rfl, rfl, metadata_blocks_amended.1 [] "X".data rfl,
   metadata_blocks_amended.2.1 [] "Metadata:".data rfl⟩

/-! ## C2 — subdataset-prefix disambiguation -/

/-- C2 counterexample: with the two discovered subdatasets `FOO` and
`FOOB`, the key `FOOB_X` is prefixed by BOTH names, and the source's
inner loop (which never breaks) assigns it to BOTH subdataset scopes —
under `FOO` as `FOOB_X` (no occurrence of `FOO_` to delete) and under
`FOOB` as `X` — contradicting the claim's "a key is assigned to at most
one subdataset scope, with the first matching subdataset winning".  The
`FOO` match also shows no `_` after the name is required. -/
theorem prefix_rule_counterexample :
    extract_metadata_text
      "Metadata:\n  SUBDATASET_1_NAME=HDF5://FOO\n  SUBDATASET_2_NAME=HDF5://FOOB\n  FOOB_X=7" =
      Except.ok
        [("subdatasets", PyVal.dict
            [("FOO", PyVal.dict [("path", PyVal.str "HDF5://FOO"),
                                 ("FOOB_X", PyVal.str "7")]),
             ("FOOB", PyVal.dict [("path", PyVal.str "HDF5://FOOB"),
                                  ("X", PyVal.str "7")])]),
         ("size_x", PyVal.int 0), ("size_y", PyVal.int 0),
         ("SUBDATASET_1_NAME", PyVal.str "HDF5://FOO"),
         ("SUBDATASET_2_NAME", PyVal.str "HDF5://FOOB")] := by
  rfl

/-- The inner subdataset loop computes `specAssignSds` and reports
whether any subdataset name is a prefix of the key. -/
theorem assignIntoSds_spec (key value : String) (sdsd : Md)
    (hd : ∀ e ∈ sdsd, ∃ d, e.2 = PyVal.dict d) :
    assignIntoSds key value sdsd =
      Except.ok (specAssignSds key value sdsd,
                 sdsd.any (fun e => strPrefixOf e.1 key)) := by
  induction sdsd with
  | nil => rfl
  | cons e rest ih =>
    obtain ⟨d, hdict⟩ := hd e (List.mem_cons_self e rest)
    have hrest := ih (fun e' he' => hd e' (List.mem_cons_of_mem e he'))
    obtain ⟨sds, v⟩ := e
    simp only at hdict
    subst hdict
    by_cases hp : strPrefixOf sds key = true
    · simp only [assignIntoSds, hp, if_true, hrest, specAssignSds,
        List.map_cons, List.any_cons, Bool.true_or]
      rfl
    · have hp' : strPrefixOf sds key = false := by
        cases hb : strPrefixOf sds key
        · rfl
        · exact absurd hb hp
      simp only [assignIntoSds, hp', Bool.false_eq_true, if_false, hrest,
        specAssignSds, List.map_cons, List.any_cons, Bool.false_or]

/-- C2 amended: when assigning a flat key found inside a metadata
block, the parser tests only whether a discovered subdataset name is a
plain prefix of the key (no following `_` required); EVERY matching
subdataset receives the key with all occurrences of `<name>_` deleted,
and the key is kept out of the file's flat scope exactly when at least
one subdataset matched.  The spec's own example still holds:
`FOO_MISSING_VALUE=-1` after `SUBDATASET_1_NAME=HDF5://FOO` lands under
`FOO` as `MISSING_VALUE` (coerced to the integer -1) and not at file
scope. -/
theorem prefix_rule_amended (md : Md) (key value : String) (sdsd : Md)
    (hs : dget md "subdatasets" = some (PyVal.dict sdsd))
    (hd : ∀ e ∈ sdsd, ∃ d, e.2 = PyVal.dict d) :
    (assignMetaKey md key value =
      if sdsd.any (fun e => strPrefixOf e.1 key) then
        Except.ok (dset md "subdatasets" (PyVal.dict (specAssignSds key value sdsd)))
      else
        Except.ok (dset (dset md "subdatasets" (PyVal.dict (specAssignSds key value sdsd)))
          key (PyVal.str value)))
    ∧ extract_metadata_text
        "Metadata:\n  SUBDATASET_1_NAME=HDF5://FOO\n  FOO_MISSING_VALUE=-1" =
      Except.ok
        [("subdatasets", PyVal.dict
            [("FOO", PyVal.dict [("path", PyVal.str "HDF5://FOO"),
                                 ("MISSING_VALUE", PyVal.int (-1))])]),
         ("size_x", PyVal.int 0), ("size_y", PyVal.int 0),
         ("SUBDATASET_1_NAME", PyVal.str "HDF5://FOO")] := by
  constructor
  · have hspec := assignIntoSds_spec key value sdsd hd
    by_cases hany : sdsd.any (fun e => strPrefixOf e.1 key)
    · simp [assignMetaKey, hs, asDict, Except.bind, hspec, hany]
    · simp [assignMetaKey, hs, asDict, Except.bind, hspec, hany]
  · rfl

/-- Witness for `prefix_rule_amended`: one subdataset `FOO`, key
`FOO_MISSING_VALUE`, matching and stripped. -/
theorem prefix_rule_amended_witness :
    dget [("subdatasets", PyVal.dict [("FOO", PyVal.dict [])])] "subdatasets" =
      some (PyVal.dict [("FOO", PyVal.dict [])])
    ∧ assignMetaKey [("subdatasets", PyVal.dict [("FOO", PyVal.dict [])])]
        "FOO_MISSING_VALUE" "-1" =
      Except.ok [("subdatasets", PyVal.dict
        [("FOO", PyVal.dict [("MISSING_VALUE", PyVal.str "-1")])])] := by
  refine ⟨rfl, ?_⟩
  have h := (prefix_rule_amended
    [("subdatasets", PyVal.dict [("FOO", PyVal.dict [])])]
    "FOO_MISSING_VALUE" "-1" [("FOO", PyVal.dict [])] rfl
    (fun e he => by
      rcases List.mem_singleton.mp he with rfl
      exact ⟨[], rfl⟩)).1
  rw [h]
  rfl

/-! ## C3 — integer-coercion scope search -/

/-- C3 counterexample.  First conjunct: with `N_COLS` present in TWO
subdataset scopes, BOTH are converted — the loop does not stop at the
first successful match.  Second conjunct: with a `subdatasets` entry
present but lacking the field, a band scope holding `N_COLS` is left
untouched — band scopes are never searched once a `subdatasets` entry
exists, contradicting the claimed file → subdatasets → bands order. -/
theorem coercion_scope_counterexample :
    parse_metadata
      [("subdatasets", PyVal.dict
          [("A", PyVal.dict [("N_COLS", PyVal.str "1")]),
           ("B", PyVal.dict [("N_COLS", PyVal.str "2")])])] =
      Except.ok
        [("subdatasets", PyVal.dict
            [("A", PyVal.dict [("N_COLS", PyVal.int 1)]),
             ("B", PyVal.dict [("N_COLS", PyVal.int 2)])])]
    ∧ parse_metadata
        [("subdatasets", PyVal.dict [("A", PyVal.dict [])]),
         ("bands", PyVal.dict [("1", PyVal.dict [("N_COLS", PyVal.str "5")])])] =
      Except.ok
        [("subdatasets", PyVal.dict [("A", PyVal.dict [])]),
         ("bands", PyVal.dict [("1", PyVal.dict [("N_COLS", PyVal.str "5")])])] :=
  ⟨rfl, rfl⟩

/-- The nested-scope coercion loop converts the field in EVERY scope
that holds it, when each conversion succeeds. -/
theorem mapME_coerceScope_spec (f : String) (sdsd : Md)
    (hd : ∀ e ∈ sdsd, ∃ d, e.2 = PyVal.dict d)
    (hok : ∀ e ∈ sdsd, ∀ w, dget (pvDict e.2) f = some w →
      ∃ n, pyIntV f w = Except.ok n) :
    mapME (coerceScopeEntry f) sdsd = Except.ok (sdsd.map (specCoerceScope f)) := by
  induction sdsd with
  | nil => rfl
  | cons e rest ih =>
    obtain ⟨d, hdict⟩ := hd e (List.mem_cons_self e rest)
    have hrest := ih (fun e' he' => hd e' (List.mem_cons_of_mem e he'))
      (fun e' he' => hok e' (List.mem_cons_of_mem e he'))
    obtain ⟨name, v⟩ := e
    simp only at hdict
    subst hdict
    cases hw : dget d f with
    | none =>
      simp only [mapME, coerceScopeEntry, asDict, hw, hrest,
        specCoerceScope, List.map_cons]
    | some w =>
      obtain ⟨n, hn⟩ := hok (name, PyVal.dict d)
        (List.mem_cons_self _ rest) w (by simpa [pvDict] using hw)
      simp only [mapME, coerceScopeEntry, asDict, hw, hn, hrest,
        specCoerceScope, List.map_cons]

/-- C3 amended: the file scope is searched first, and a field found
there is converted only there.  Otherwise, when a `subdatasets` entry
exists, the field is converted in EVERY subdataset scope that holds it
and band scopes are never examined (the `bands` entry is untouched);
only when no `subdatasets` entry exists are band scopes converted, again
all of them.  A registry field present in no scope is left absent. -/
theorem coercion_scope_amended (md : Md) (f : String) (sdsd : Md)
    (hflat : dget md f = none)
    (hs : dget md "subdatasets" = some (PyVal.dict sdsd))
    (hd : ∀ e ∈ sdsd, ∃ d, e.2 = PyVal.dict d)
    (hok : ∀ e ∈ sdsd, ∀ w, dget (pvDict e.2) f = some w →
      ∃ n, pyIntV f w = Except.ok n) :
    coerceField md f =
      Except.ok (dset md "subdatasets" (PyVal.dict (sdsd.map (specCoerceScope f))))
    ∧ dget (dset md "subdatasets" (PyVal.dict (sdsd.map (specCoerceScope f))))
        "bands" = dget md "bands"
    ∧ (∀ md2 : Md, dget md2 f = none → dget md2 "subdatasets" = none →
        dget md2 "bands" = none → coerceField md2 f = Except.ok md2)
    ∧ (∀ (md1 : Md) (w : PyVal) (n : Int), f ≠ "subdatasets" → f ≠ "bands" →
        dget md1 f = some w → pyIntV f w = Except.ok n →
        coerceField md1 f = Except.ok (dset md1 f (PyVal.int n))
        ∧ dget (dset md1 f (PyVal.int n)) "subdatasets" = dget md1 "subdatasets"
        ∧ dget (dset md1 f (PyVal.int n)) "bands" = dget md1 "bands")
    ∧ (∀ (md2 : Md) (bd : Md), dget md2 f = none →
        dget md2 "subdatasets" = none →
        dget md2 "bands" = some (PyVal.dict bd) →
        (∀ e ∈ bd, ∃ d, e.2 = PyVal.dict d) →
        (∀ e ∈ bd, ∀ w, dget (pvDict e.2) f = some w →
          ∃ n, pyIntV f w = Except.ok n) →
        coerceField md2 f =
          Except.ok (dset md2 "bands" (PyVal.dict (bd.map (specCoerceScope f))))) := by
  refine ⟨?_, ?_, ?_, ?_, ?_⟩
  · simp only [coerceField, hflat, hs, asDict, mapME_coerceScope_spec f sdsd hd hok]
  · exact dget_dset_ne md "subdatasets" "bands" _ (by decide)
  · intro md2 h1 h2 h3
    simp only [coerceField, h1, h2, h3]
  · intro md1 w n hns hnb hw hn
    refine ⟨?_, ?_, ?_⟩
    · simp only [coerceField, hw, hn]
    · exact dget_dset_ne md1 f "subdatasets" _ hns
    · exact dget_dset_ne md1 f "bands" _ hnb
  · intro md2 bd h1 h2 h3 hdb hokb
    simp only [coerceField, h1, h2, h3, asDict, mapME_coerceScope_spec f bd hdb hokb]

/-- Witness for `coercion_scope_amended`: a subdataset scope holding
`N_COLS = "2"` is converted in place; a file-scope `N_COLS = "7"` is
converted only at file scope, leaving the subdataset scope's raw `"2"`
untouched; a band scope holding `N_COLS = "5"` is converted when no
`subdatasets` entry exists. -/
theorem coercion_scope_amended_witness :
    dget [("subdatasets", PyVal.dict [("A", PyVal.dict [("N_COLS", PyVal.str "2")])])]
      "N_COLS" = none
    ∧ coerceField
        [("subdatasets", PyVal.dict [("A", PyVal.dict [("N_COLS", PyVal.str "2")])])]
        "N_COLS" =
      Except.ok
        [("subdatasets", PyVal.dict [("A", PyVal.dict [("N_COLS", PyVal.int 2)])])]
    ∧ coerceField
        [("N_COLS", PyVal.str "7"),
         ("subdatasets", PyVal.dict [("A", PyVal.dict [("N_COLS", PyVal.str "2")])])]
        "N_COLS" =
      Except.ok
        [("N_COLS", PyVal.int 7),
         ("subdatasets", PyVal.dict [("A", PyVal.dict [("N_COLS", PyVal.str "2")])])]
    ∧ coerceField
        [("bands", PyVal.dict [("1", PyVal.dict [("N_COLS", PyVal.str "5")])])]
        "N_COLS" =
      Except.ok
        [("bands", PyVal.dict [("1", PyVal.dict [("N_COLS", PyVal.int 5)])])] := by
  have hall := coercion_scope_amended
    [("subdatasets", PyVal.dict [("A", PyVal.dict [("N_COLS", PyVal.str "2")])])]
    "N_COLS" [("A", PyVal.dict [("N_COLS", PyVal.str "2")])] rfl rfl
    (fun e he => by
      rcases List.mem_singleton.mp he with rfl
      exact ⟨_, rfl⟩)
    (fun e he w hw => by
      rcases List.mem_singleton.mp he with rfl
      simp [pvDict, dget] at hw
      subst hw
      exact ⟨2, rfl⟩)
  refine ⟨rfl, ?_, ?_, ?_⟩
  · rw [hall.1]
    rfl
  · rw [(hall.2.2.2.1
      [("N_COLS", PyVal.str "7"),
       ("subdatasets", PyVal.dict [("A", PyVal.dict [("N_COLS", PyVal.str "2")])])]
      (PyVal.str "7") 7 (by decide) (by decide) rfl rfl).1]
    rfl
  · rw [hall.2.2.2.2
      [("bands", PyVal.dict [("1", PyVal.dict [("N_COLS", PyVal.str "5")])])]
      [("1", PyVal.dict [("N_COLS", PyVal.str "5")])] rfl rfl rfl
      (fun e he => by
        rcases List.mem_singleton.mp he with rfl
        exact ⟨_, rfl⟩)
      (fun e he w hw => by
        rcases List.mem_singleton.mp he with rfl
        simp [pvDict, dget] at hw
        subst hw
        exact ⟨5, rfl⟩)]
    rfl

/-! ## C7 — integer coercion success and failure -/

/-- A field step is a no-op on a one-entry dict holding a different,
non-scope key. -/
theorem coerceField_single_skip (f : String) (x : PyVal) (g : String)
    (hg : f ≠ g) (h1 : f ≠ "subdatasets") (h2 : f ≠ "bands") :
    coerceField [(f, x)] g = Except.ok [(f, x)] := by
  simp only [coerceField, dget_single, hg, if_false, h1, h2]

/-- Once the registry field holds an integer, re-running any suffix of
the registry loop leaves the one-entry dict unchanged. -/
theorem foldME_single_int (L : List String) (f : String) (n : Int)
    (h1 : f ≠ "subdatasets") (h2 : f ≠ "bands") :
    foldME coerceField [(f, PyVal.int n)] L = Except.ok [(f, PyVal.int n)] := by
  induction L with
  | nil => rfl
  | cons g L' ih =>
    by_cases hg : f = g
    · subst hg
      simp [foldME, coerceField, dget_single, pyIntV, dset, ih]
    · simp only [foldME, coerceField_single_skip f (PyVal.int n) g hg h1 h2, ih]

/-- Running the registry loop on a one-entry dict holding non-numeric
text under a registry field fails with the error naming that field and
raw value. -/
theorem foldME_single_bad (L : List String) (f v : String) (hf : f ∈ L)
    (hv : pyIntStr v = none) (h1 : f ≠ "subdatasets") (h2 : f ≠ "bands") :
    foldME coerceField [(f, PyVal.str v)] L =
      Except.error (MetaError.metadataType f v) := by
  induction L with
  | nil => cases hf
  | cons g L' ih =>
    by_cases hg : f = g
    · subst hg
      simp [foldME, coerceField, dget_single, pyIntV, hv]
    · have hf' : f ∈ L' := by
        cases List.mem_cons.mp hf with
        | inl h => exact absurd h hg
        | inr h => exact h
      simp only [foldME, coerceField_single_skip f (PyVal.str v) g hg h1 h2, ih hf']

/-- Running the registry loop on a one-entry dict holding numeric text
under a registry field converts it to the integer. -/
theorem foldME_single_conv (L : List String) (f v : String) (n : Int)
    (hf : f ∈ L) (hv : pyIntStr v = some n)
    (h1 : f ≠ "subdatasets") (h2 : f ≠ "bands") :
    foldME coerceField [(f, PyVal.str v)] L = Except.ok [(f, PyVal.int n)] := by
  induction L with
  | nil => cases hf
  | cons g L' ih =>
    by_cases hg : f = g
    · subst hg
      simp [foldME, coerceField, dget_single, pyIntV, hv, dset,
        foldME_single_int L' f n h1 h2]
    · have hf' : f ∈ L' := by
        cases List.mem_cons.mp hf with
        | inl h => exact absurd h hg
        | inr h => exact h
      simp only [foldME, coerceField_single_skip f (PyVal.str v) g hg h1 h2, ih hf']

/-- Registry field names never collide with the reserved scope keys or
the float/timestamp fields. -/
theorem int_fields_distinct (f : String) (hf : f ∈ int_fields) :
    f ≠ "subdatasets" ∧ f ≠ "bands" ∧ f ≠ "PIXEL_SIZE" ∧
      f ≠ "IMAGE_ACQUISITION_TIME" := by
  fin_cases hf <;> refine ⟨?_, ?_, ?_, ?_⟩ <;> decide

/-- C7: for any registered integer field, non-numeric raw text (any `v`
Python's `int` rejects, such as `"abc"`) fails the whole coercion with
an error naming the field and raw value, while the numeric raw text
`"1234"` coerces to the integer `1234`. -/
theorem int_coercion_spec (f v : String) (hf : f ∈ int_fields)
    (hv : pyIntStr v = none) :
    parse_metadata [(f, PyVal.str v)] =
      Except.error (MetaError.metadataType f v)
    ∧ parse_metadata [(f, PyVal.str "1234")] =
      Except.ok [(f, PyVal.int 1234)] := by
  obtain ⟨h1, h2, h3, h4⟩ := int_fields_distinct f hf
  constructor
  · simp only [parse_metadata, foldME_single_bad int_fields f v hf hv h1 h2]
  · have hconv := foldME_single_conv int_fields f "1234" 1234 hf rfl h1 h2
    simp [parse_metadata, hconv, coercePixelSize, dget_single, h3,
      coerceAcqTime, h4]

/-- Witness for `int_coercion_spec` at `MISSING_VALUE` and `"abc"`. -/
theorem int_coercion_spec_witness :
    "MISSING_VALUE" ∈ int_fields ∧ pyIntStr "abc" = none ∧
    parse_metadata [("MISSING_VALUE", PyVal.str "abc")] =
      Except.error (MetaError.metadataType "MISSING_VALUE" "abc") ∧
    parse_metadata [("MISSING_VALUE", PyVal.str "1234")] =
      Except.ok [("MISSING_VALUE", PyVal.int 1234)] :=
  ⟨by decide, rfl,
   (int_coercion_spec "MISSING_VALUE" "abc" (by decide) rfl).1,
   (int_coercion_spec "MISSING_VALUE" "abc" (by decide) rfl).2⟩

/-! ## C8 — acquisition-timestamp parsing -/

/-- C8 counterexample: the raw value `"201511120"` is not a 12-digit
`YYYYMMDDHHMM` string (it has 9 digits), yet `strptime`'s
flexible-width directives accept it — via backtracking it parses as
year 2015, month 11, day 1, hour 2, minute 0 — so the coercion silently
produces a calendar instant instead of failing. -/
theorem timestamp_lenient_counterexample :
    strptimeYmdHM "201511120" = some ⟨2015, 11, 1, 2, 0⟩
    ∧ parse_metadata [("IMAGE_ACQUISITION_TIME", PyVal.str "201511120")] =
      Except.ok [("IMAGE_ACQUISITION_TIME", PyVal.dt ⟨2015, 11, 1, 2, 0⟩)] :=
  ⟨rfl, rfl⟩

/-- The registry loop leaves a one-entry dict alone when its key is not
a registry field or scope key. -/
theorem foldME_single_skip (L : List String) (f : String) (x : PyVal)
    (hf : f ∉ L) (h1 : f ≠ "subdatasets") (h2 : f ≠ "bands") :
    foldME coerceField [(f, x)] L = Except.ok [(f, x)] := by
  induction L with
  | nil => rfl
  | cons g L' ih =>
    have hg : f ≠ g := fun h => hf (h ▸ List.mem_cons_self g L')
    have hf' : f ∉ L' := fun h => hf (List.mem_cons_of_mem g h)
    simp only [foldME, coerceField_single_skip f x g hg h1 h2, ih hf']

/-- C8 amended: whatever value `strptime(value, '%Y%m%d%H%M')` accepts
(including, by its flexible field widths, some strings that are not
12-digit `YYYYMMDDHHMM` forms) is stored as the parsed calendar instant;
whatever it rejects fails the coercion with an error naming the field
and raw value, never a default date.  The spec's examples hold:
`"201501151200"` parses to 2015-01-15T12:00 and `"2015"` is rejected. -/
theorem timestamp_parsing_amended (v : String) :
    (strptimeYmdHM v = none →
      parse_metadata [("IMAGE_ACQUISITION_TIME", PyVal.str v)] =
        Except.error (MetaError.metadataType "IMAGE_ACQUISITION_TIME" v))
    ∧ (∀ t : DateTimeM, strptimeYmdHM v = some t →
      parse_metadata [("IMAGE_ACQUISITION_TIME", PyVal.str v)] =
        Except.ok [("IMAGE_ACQUISITION_TIME", PyVal.dt t)])
    ∧ strptimeYmdHM "201501151200" = some ⟨2015, 1, 15, 12, 0⟩
    ∧ strptimeYmdHM "2015" = none := by
  have hskip := foldME_single_skip int_fields "IMAGE_ACQUISITION_TIME"
    (PyVal.str v) (by decide) (by decide) (by decide)
  refine ⟨?_, ?_, rfl, rfl⟩
  · intro hv
    simp [parse_metadata, hskip, coercePixelSize, dget_single,
      coerceAcqTime, hv]
  · intro t ht
    simp [parse_metadata, hskip, coercePixelSize, dget_single,
      coerceAcqTime, ht, dset]

/-- Witness for `timestamp_parsing_amended` at the spec's two
examples. -/
theorem timestamp_parsing_amended_witness :
    parse_metadata [("IMAGE_ACQUISITION_TIME", PyVal.str "2015")] =
      Except.error (MetaError.metadataType "IMAGE_ACQUISITION_TIME" "2015")
    ∧ parse_metadata [("IMAGE_ACQUISITION_TIME", PyVal.str "201501151200")] =
      Except.ok [("IMAGE_ACQUISITION_TIME", PyVal.dt ⟨2015, 1, 15, 12, 0⟩)] :=
  ⟨(timestamp_parsing_amended "2015").1 rfl,
   (timestamp_parsing_amended "201501151200").2.1 ⟨2015, 1, 15, 12, 0⟩ rfl⟩

/-! ## C5 / C6 — tile grouping -/

/-- A path that fails the naming pattern aborts the grouping fold with
`tileNaming` on the first such path, whatever has been accumulated. -/
theorem foldME_groupStep_error (tiles : List String)
    (acc : List (String × List String))
    (hbad : ∃ p ∈ tiles, findTileKey p = none) :
    ∃ q ∈ tiles, findTileKey q = none ∧
      foldME groupStep acc tiles = Except.error (MergeError.tileNaming q) := by
  induction tiles generalizing acc with
  | nil => obtain ⟨p, hp, _⟩ := hbad; cases hp
  | cons p rest ih =>
    cases hk : findTileKey p with
    | none =>
      exact ⟨p, List.mem_cons_self p rest, hk, by
        simp only [foldME, groupStep, hk]⟩
    | some k =>
      have hbad' : ∃ q ∈ rest, findTileKey q = none := by
        obtain ⟨q, hq, hqn⟩ := hbad
        cases List.mem_cons.mp hq with
        | inl h => rw [h] at hqn; rw [hqn] at hk; cases hk
        | inr h => exact ⟨q, h, hqn⟩
      obtain ⟨q, hq, hqn, hfold⟩ := ih (addPath acc k p) hbad'
      exact ⟨q, List.mem_cons_of_mem p hq, hqn, by
        simp only [foldME, groupStep, hk, hfold]⟩

/-- When every path is well-named the grouping fold succeeds and equals
the pure fold. -/
theorem foldME_groupStep_ok (tiles : List String)
    (acc : List (String × List String))
    (hall : ∀ p ∈ tiles, (findTileKey p).isSome) :
    foldME groupStep acc tiles =
      Except.ok (tiles.foldl (fun a p => addPath a (keyOf p) p) acc) := by
  induction tiles generalizing acc with
  | nil => rfl
  | cons p rest ih =>
    obtain ⟨k, hk⟩ := Option.isSome_iff_exists.mp
      (hall p (List.mem_cons_self p rest))
    have hkey : keyOf p = k := by simp [keyOf, hk]
    simp only [foldME, groupStep, hk, List.foldl_cons, hkey,
      ih (addPath acc k p) (fun q hq => hall q (List.mem_cons_of_mem p hq))]

/-- Looking up a group after one `addPath` step. -/
theorem dget_addPath (acc : List (String × List String)) (k' : String)
    (p : String) (k : String) :
    dget (addPath acc k' p) k =
      if k' = k then some ((dget acc k).getD [] ++ [p]) else dget acc k := by
  induction acc with
  | nil =>
    by_cases h : k' = k
    · simp [addPath, dget, h]
    · simp [addPath, dget, h]
  | cons e rest ih =>
    obtain ⟨k0, l0⟩ := e
    by_cases h0 : k0 = k'
    · subst h0
      by_cases h : k0 = k
      · subst h; simp [addPath, dget]
      · simp [addPath, dget, h]
    · by_cases h : k0 = k
      · subst h
        have : k' ≠ k0 := fun hc => h0 hc.symm
        simp [addPath, dget, h0, this]
      · simp [addPath, dget, h0, h, ih]

/-- The pure grouping fold collects, for every key, exactly the
well-named input paths carrying that key, in input order, appended to
whatever the accumulator already held. -/
theorem dget_groupFold (tiles : List String)
    (acc : List (String × List String)) (k : String)
    (hall : ∀ p ∈ tiles, (findTileKey p).isSome) :
    dget (tiles.foldl (fun a p => addPath a (keyOf p) p) acc) k =
      combineOpt (dget acc k)
        (tiles.filter (fun p => findTileKey p == some k)) := by
  induction tiles generalizing acc with
  | nil =>
    simp only [List.foldl_nil, List.filter_nil, combineOpt]
    cases dget acc k <;> simp [combineOpt]
  | cons p rest ih =>
    obtain ⟨s, hs⟩ := Option.isSome_iff_exists.mp
      (hall p (List.mem_cons_self p rest))
    have hkey : keyOf p = s := by simp [keyOf, hs]
    have ih' := ih (addPath acc (keyOf p) p)
      (fun q hq => hall q (List.mem_cons_of_mem p hq))
    by_cases hsk : s = k
    · subst hsk
      have hfil : (p :: rest).filter (fun q => findTileKey q == some s) =
          p :: rest.filter (fun q => findTileKey q == some s) := by
        simp [List.filter_cons, hs]
      rw [List.foldl_cons, hfil, ih', dget_addPath, hkey, if_pos rfl]
      cases hacc : dget acc s with
      | none =>
        simp only [Option.getD_none, List.nil_append, combineOpt]
        cases rest.filter (fun q => findTileKey q == some s) <;> rfl
      | some l =>
        simp only [Option.getD_some, combineOpt]
        cases rest.filter (fun q => findTileKey q == some s) <;>
          simp [combineOpt, List.append_assoc]
    · have hfil : (p :: rest).filter (fun q => findTileKey q == some k) =
          rest.filter (fun q => findTileKey q == some k) := by
        simp [List.filter_cons, hs, Option.some.injEq, hsk]
      rw [List.foldl_cons, hfil, ih', dget_addPath, hkey, if_neg hsk]

/-- The first element kept by a filter is the first element satisfying
the predicate. -/
theorem filter_head_eq_find (l : List String) (P : String → Bool) :
    (l.filter P).head? = l.find? P := by
  induction l with
  | nil => rfl
  | cons a rest ih =>
    cases hP : P a with
    | true => simp [List.filter_cons, hP, List.find?]
    | false => simp [List.filter_cons, hP, List.find?, ih]

/-- C5: when any input path fails the `v1_<identifier>.tif` trailing
pattern, the whole merge operation fails with the naming error on the
first such path — nothing is produced and no path is silently skipped.
(The hypothesis on the first tile reflects the product-code extraction
the source performs before grouping, line 67.) -/
theorem grouping_fails_on_bad_name (meta : String → Option TileMeta)
    (t0 : String) (rest : List String)
    (hprod : (searchProduct t0).isSome)
    (hbad : ∃ p ∈ t0 :: rest, findTileKey p = none) :
    ∃ q ∈ t0 :: rest, findTileKey q = none ∧
      merge_tiles meta (t0 :: rest) = Except.error (MergeError.tileNaming q) := by
  obtain ⟨prod, hp⟩ := Option.isSome_iff_exists.mp hprod
  obtain ⟨q, hq, hqn, hfold⟩ := foldME_groupStep_error (t0 :: rest) [] hbad
  refine ⟨q, hq, hqn, ?_⟩
  simp only [merge_tiles, mosaicJobs, hp, group_datasets, hfold]

/-- Witness for `grouping_fails_on_bad_name`: a well-named first tile
and a second tile ending `_v1.tif` with no trailing identifier. -/
theorem grouping_fails_on_bad_name_witness :
    (searchProduct "/d/g2_BIOPAR_LST_201501151200_TILE1_GEO_v1_QFLAG.tif").isSome = true
    ∧ findTileKey "/d/g2_BIOPAR_LST_201501151200_TILE2_GEO_v1.tif" = none
    ∧ ∃ q ∈ ["/d/g2_BIOPAR_LST_201501151200_TILE1_GEO_v1_QFLAG.tif",
             "/d/g2_BIOPAR_LST_201501151200_TILE2_GEO_v1.tif"],
        findTileKey q = none ∧
        merge_tiles (fun _ => none)
          ["/d/g2_BIOPAR_LST_201501151200_TILE1_GEO_v1_QFLAG.tif",
           "/d/g2_BIOPAR_LST_201501151200_TILE2_GEO_v1.tif"] =
          Except.error (MergeError.tileNaming q) :=
  ⟨rfl, rfl,
   grouping_fails_on_bad_name (fun _ => none)
     "/d/g2_BIOPAR_LST_201501151200_TILE1_GEO_v1_QFLAG.tif"
     ["/d/g2_BIOPAR_LST_201501151200_TILE2_GEO_v1.tif"]
     (by decide)
     ⟨"/d/g2_BIOPAR_LST_201501151200_TILE2_GEO_v1.tif",
      by simp, rfl⟩⟩

/-- C6: with every path well-named, grouping succeeds; each key's member
list is exactly the input paths whose captured identifier equals that
key, in input order; the first member is the first such path of the
input; and the merged output for a group is named and parameterized by
the metadata of that first member alone. -/
theorem grouping_by_key_first_member (tiles : List String) (k : String)
    (hall : ∀ p ∈ tiles, (findTileKey p).isSome) :
    group_datasets tiles = Except.ok (specGroups tiles)
    ∧ dget (specGroups tiles) k =
        (if tiles.filter (fun p => findTileKey p == some k) = [] then none
         else some (tiles.filter (fun p => findTileKey p == some k)))
    ∧ (tiles.filter (fun p => findTileKey p == some k)).head? =
        tiles.find? (fun p => findTileKey p == some k)
    ∧ (∀ (meta : String → Option TileMeta) (product : String)
        (ms : List String) (p0 : String) (m : TileMeta),
        ms.head? = some p0 → meta p0 = some m →
        mosaicOfGroup meta product k ms =
          Except.ok ⟨dirname p0 ++ "/global_" ++ product ++ "_" ++
            strftimeYmdHM m.acqTime ++ "_" ++ k ++ ".tif",
            m.missingValue, ms⟩) := by
  refine ⟨foldME_groupStep_ok tiles [] hall, ?_, filter_head_eq_find _ _, ?_⟩
  · have h := dget_groupFold tiles [] k hall
    have hnone : dget ([] : List (String × List String)) k = none := rfl
    rw [hnone] at h
    rw [specGroups, h]
    cases tiles.filter (fun p => findTileKey p == some k) <;> simp [combineOpt]
  · intro meta product ms p0 m hms hm
    cases ms with
    | nil => cases hms
    | cons a ms' =>
      have ha : a = p0 := by simpa using hms
      subst ha
      simp [mosaicOfGroup, hm]

/-- Witness for `grouping_by_key_first_member`: the spec's two `QFLAG`
tiles plus an `LST` tile; the `QFLAG` group holds both `QFLAG` paths in
input order. -/
theorem grouping_by_key_first_member_witness :
    (∀ p ∈ ["/d/g2_BIOPAR_LST_201501151200_TILE1_GEO_v1_QFLAG.tif",
            "/d/g2_BIOPAR_LST_201501151200_TILE2_GEO_v1_QFLAG.tif",
            "/d/g2_BIOPAR_LST_201501151200_TILE1_GEO_v1_LST.tif"],
        (findTileKey p).isSome)
    ∧ dget (specGroups
        ["/d/g2_BIOPAR_LST_201501151200_TILE1_GEO_v1_QFLAG.tif",
         "/d/g2_BIOPAR_LST_201501151200_TILE2_GEO_v1_QFLAG.tif",
         "/d/g2_BIOPAR_LST_201501151200_TILE1_GEO_v1_LST.tif"]) "QFLAG" =
      some ["/d/g2_BIOPAR_LST_201501151200_TILE1_GEO_v1_QFLAG.tif",
            "/d/g2_BIOPAR_LST_201501151200_TILE2_GEO_v1_QFLAG.tif"] := by
  refine ⟨by decide, ?_⟩
  have h := (grouping_by_key_first_member
    ["/d/g2_BIOPAR_LST_201501151200_TILE1_GEO_v1_QFLAG.tif",
     "/d/g2_BIOPAR_LST_201501151200_TILE2_GEO_v1_QFLAG.tif",
     "/d/g2_BIOPAR_LST_201501151200_TILE1_GEO_v1_LST.tif"]
    "QFLAG" (by decide)).2.1
  rw [h]
  rfl
